import Mathlib

/-!
Verification of the reconciliation core of `canvas-trello-sync`.

The Rust sources (`src/bin/canvas_trello_sync.rs`, `src/trello.rs`,
`src/canvas.rs`, `src/config.rs`) are shallowly embedded below:

* HTTP transport is abstract: the Trello board snapshot, the Canvas
  assignment-list fetch, the fallibility of Trello mutation calls and the
  server-assigned ids of created cards are fields of an `Env` record.
* `chrono::DateTime<Utc>` timestamps are modelled as `Int`.
* `url::Url` is modelled by its scheme, its cannot-be-a-base flag and the
  remainder of its serialization; `Url::set_scheme(_, "https")` fails
  exactly when the url is cannot-be-a-base or its current scheme is not
  one of the "special" schemes, matching the `url` crate's rules for a
  change to the special scheme `https`.
* The effectful sync functions are state-passing functions producing an
  `Outcome`: success, a context-wrapped error (from `eyre`'s `wrap_err`
  chain), or a panic (`unwrap` on a failed `set_scheme`).  The list of
  Trello mutations successfully applied so far is part of every outcome,
  so durability of already-applied mutations is expressible.
-/

set_option maxHeartbeats 1000000

namespace CanvasTrelloSync

/-- Model of `url::Url`: scheme, the cannot-be-a-base flag, and the rest of
the serialization after `scheme://`. -/
structure Url where
  scheme : String
  cannot_be_a_base : Bool
  rest : String
deriving Repr, DecidableEq

/-- The "special" schemes of the WHATWG url standard as used by the `url`
crate's `set_scheme` conversion rules (`file` excluded: a conversion
between `file` and the network schemes is also refused). -/
def specialSchemes : List String := ["http", "https", "ws", "wss", "ftp"]

/-- Model of `Url::set_scheme(u, "https")` (`canvas_trello_sync.rs:181`):
the new scheme `https` is valid and special, so the call fails exactly when
the url is cannot-be-a-base or its old scheme is not special. -/
def Url.setSchemeHttps (u : Url) : Option Url :=
  if u.cannot_be_a_base then none
  else if specialSchemes.contains u.scheme then some { u with scheme := "https" }
  else none

/-- Serialization of a url, used for `Url::as_str` / `Url::to_string`. -/
def Url.render (u : Url) : String := u.scheme ++ "://" ++ u.rest

/-- Model of `canvas::Assignment` (`canvas.rs:122-132`). -/
structure Assignment where
  id : String
  name : String
  description : Option String
  due_at : Int
  html_url : Url
  expects_submission : Bool
deriving Repr, DecidableEq

/-- Modelled from the spec: the binary calls `Assignment::submitted()`
(e.g. `canvas_trello_sync.rs:222`), but the method's definition is not
present under `src/` (only its callers are; `canvas.rs` stores the raw
GraphQL field `expects_submission`).  The spec says the computed
dueComplete is a "boolean equal to the assignment's submission flag", so
the missing method is modelled as returning the stored submission flag. -/
def Assignment.submitted (a : Assignment) : Bool := a.expects_submission

/-- Model of `trello::CustomFieldValue` (`trello.rs:185-195`): an untagged
two-variant union; the opaque payload of the `Other` variant is never
inspected by the program, so it is not modelled. -/
inductive CustomFieldValue where
  | text (text : String)
  | other
deriving Repr, DecidableEq

/-- Model of `trello::CustomFieldItem` (`trello.rs:168-174`). -/
structure CustomFieldItem where
  id : String
  value : CustomFieldValue
  id_custom_field : String
deriving Repr, DecidableEq

/-- Model of `CustomFieldItem::as_str` (`trello.rs:176-183`): the safe
as-text accessor, `none` for the non-text variant. -/
def CustomFieldItem.as_str (i : CustomFieldItem) : Option String :=
  match i.value with
  | .text t => some t
  | .other => none

/-- Model of `trello::Label` (`trello.rs:154-159`). -/
structure Label where
  id : String
  name : String
deriving Repr, DecidableEq

/-- Model of `trello::List` (`trello.rs:161-166`). -/
structure TrelloList where
  id : String
  name : String
deriving Repr, DecidableEq

/-- Model of `trello::CustomFieldDesc` (`trello.rs:134-139`). -/
structure CustomFieldDesc where
  id : String
  name : String
deriving Repr, DecidableEq

/-- Model of `trello::Card` (`trello.rs:141-152`). -/
structure Card where
  id : String
  name : String
  desc : String
  due : Option Int
  due_complete : Bool
  labels : List Label
  custom_field_items : List CustomFieldItem
deriving Repr, DecidableEq

/-- Model of `trello::Board` (`trello.rs:125-132`), the board snapshot. -/
structure Board where
  cards : List Card
  custom_fields : List CustomFieldDesc
  labels : List Label
  lists : List TrelloList
deriving Repr, DecidableEq

/-- Model of `config::Mapping` (`config.rs:23-27`). -/
structure Mapping where
  canvas_course_id : String
  trello_label_name : String
deriving Repr, DecidableEq

/-- The mutation decisions the reconciler can take for an assignment.
`createCard` additionally records the server-assigned id of the new card
(the `Card` returned by `Client::create_card`), which the follow-up
`setTrackingField` call references. -/
inductive Decision where
  | noOp (cardId : String)
  | updateCard (cardId : String) (due : Int) (dueComplete : Bool) (desc : String)
  | createCard (newCardId listId : String) (labelIds : List String)
      (name desc : String) (due : Int) (dueComplete : Bool)
  | setTrackingField (cardId fieldId value : String)
deriving Repr, DecidableEq

def Decision.isNoOp : Decision → Bool
  | .noOp _ => true
  | _ => false

def Decision.isCreateOrUpdate : Decision → Bool
  | .updateCard _ _ _ _ => true
  | .createCard _ _ _ _ _ _ _ => true
  | _ => false

/-- The mutable counters of `Context` (`canvas_trello_sync.rs:147-150`),
plus bookkeeping for the abstract Trello transport: `calls` counts the
Trello mutation calls attempted so far (used to inject transport
failures), `createsDone` counts the successful card creations (used to
generate the server-assigned ids of new cards). -/
structure St where
  calls : Nat
  createsDone : Nat
  count_assignments : Nat
  count_created : Nat
  count_updated : Nat
  count_up_to_date : Nat
deriving Repr, DecidableEq

/-- The all-zero initial state. -/
def st0 : St := ⟨0, 0, 0, 0, 0, 0⟩

/-- Result of an effectful sync step.  `ds` is the stream of per-card
decisions emitted so far: `noOp` entries plus every Trello mutation that
was successfully applied.  The stream is carried by the error and panic
outcomes too — mutations applied before an abort remain applied.  `err`
carries the `eyre` context chain, outermost wrap first. -/
inductive Outcome where
  | ok (ds : List Decision) (st : St)
  | err (ctx : List String) (ds : List Decision) (st : St)
  | panicked (ds : List Decision) (st : St)
deriving Repr, DecidableEq

def Outcome.isOk : Outcome → Bool
  | .ok _ _ => true
  | _ => false

def Outcome.isErr : Outcome → Bool
  | .err _ _ _ => true
  | _ => false

/-- The decision stream of an outcome, whether or not the run aborted. -/
def Outcome.decisionList : Outcome → List Decision
  | .ok ds _ => ds
  | .err _ ds _ => ds
  | .panicked ds _ => ds

def Outcome.prepend (ds : List Decision) : Outcome → Outcome
  | .ok ds2 st => .ok (ds ++ ds2) st
  | .err ctx ds2 st => .err ctx (ds ++ ds2) st
  | .panicked ds2 st => .panicked (ds ++ ds2) st

/-- Sequencing of sync steps: on success continue from the new state,
keeping the decisions already emitted; an error or panic short-circuits. -/
def Outcome.seq (o : Outcome) (f : St → Outcome) : Outcome :=
  match o with
  | .ok ds st => (f st).prepend ds
  | e => e

/-- Model of `eyre::WrapErr::wrap_err` at a call boundary: pushes a context
message onto an error; success and panic pass through unchanged. -/
def wrapErr (msg : String) : Outcome → Outcome
  | .err ctx ds st => .err (msg :: ctx) ds st
  | o => o

/-- Rust's `{:?}` formatting of a string, as used in the error-context
messages (escaping of inner quotes is not modelled). -/
def rustDebug (s : String) : String := "\x22" ++ s ++ "\x22"

/-- The environment of a run: the board snapshot fetched once at startup
(`canvas_trello_sync.rs:70-78`), the resolved id of the `Canvas URL`
custom field and of the list new cards go to (`:81-101`), and the
abstract external collaborators: the HTML→Markdown renderer
(`html2md::parse_html`), the Canvas assignment fetch, the failure
behaviour of Trello mutation calls (`trello_fails n` = the n-th attempted
mutation call fails in transport), and the server-assigned id of the n-th
created card. -/
structure Env where
  board : Board
  canvas_url_field_id : String
  new_card_list_id : String
  parse_html : String → String
  get_assignments : String → Except String (List Assignment)
  trello_fails : Nat → Bool
  fresh_card_id : Nat → String

/-- The fixed header constant `desc_header`
(`canvas_trello_sync.rs:196`); the characters are exactly the bytes of the
source literal. -/
def descHeader : String := "ðŸ”„ Canvas Trello Sync"

/-- Model of `str::starts_with` on strings: character-prefix test. -/
def startsWithStr (s p : String) : Bool := s.data.take p.data.length == p.data

/-- The rendered description for a card
(`canvas_trello_sync.rs:195-203`): header plus horizontal rule plus the
markdown rendering when the assignment has a description, the header alone
otherwise. -/
def newDescription (env : Env) (a : Assignment) : String :=
  match a.description with
  | some d => descHeader ++ "\n\n---\n\n" ++ env.parse_html d
  | none => descHeader

/-- The text value a card carries for a custom field: the first item for
that field id, read through the as-text accessor
(`canvas_trello_sync.rs:211-214`). -/
def trackingValue (fieldId : String) (c : Card) : Option String :=
  (c.custom_field_items.find? (fun i => i.id_custom_field == fieldId)).bind
    CustomFieldItem.as_str

/-- The card matcher (`canvas_trello_sync.rs:205-217`): every card of the
snapshot whose tracking-field text value equals the canonical url. -/
def matchCards (cards : List Card) (fieldId url : String) : List Card :=
  cards.filter (fun c => trackingValue fieldId c == some url)

/-- `mismatch_due` (`canvas_trello_sync.rs:221`): a stored due of `none`
compares unequal to `some due_at`, so it always counts as mismatched. -/
def mismatchDue (a : Assignment) (c : Card) : Bool := !(c.due == some a.due_at)

/-- `mismatch_complete` (`canvas_trello_sync.rs:222`). -/
def mismatchComplete (a : Assignment) (c : Card) : Bool :=
  !(c.due_complete == a.submitted)

/-- `mismatch_desc` (`canvas_trello_sync.rs:223-224`): only cards whose
stored description starts with the header are compared. -/
def mismatchDesc (nd : String) (c : Card) : Bool :=
  startsWithStr c.desc descHeader && !(c.desc == nd)

/-- `should_update` (`canvas_trello_sync.rs:226`). -/
def shouldUpdateCard (a : Assignment) (nd : String) (c : Card) : Bool :=
  mismatchDue a c || mismatchComplete a c || mismatchDesc nd c

/-- The pure per-matched-card decision of the reconciler
(`canvas_trello_sync.rs:220-257`): the full update patch when any flag
holds, a no-op otherwise. -/
def decideCard (a : Assignment) (nd : String) (c : Card) : Decision :=
  if shouldUpdateCard a nd c then .updateCard c.id a.due_at a.submitted nd
  else .noOp c.id

/-- An attempted Trello mutation call: fails in transport according to
`env.trello_fails` (wrapped with the call site's context message),
otherwise the mutation is durably applied and emitted. -/
def attemptCall (env : Env) (msg : String) (d : Decision) (st : St) : Outcome :=
  if env.trello_fails st.calls then
    .err [msg] [] { st with calls := st.calls + 1 }
  else
    .ok [d] { st with calls := st.calls + 1 }

/-- One iteration of the update loop (`canvas_trello_sync.rs:220-257`). -/
def syncExistingCard (env : Env) (a : Assignment) (nd : String) (c : Card)
    (st : St) : Outcome :=
  if !(shouldUpdateCard a nd c) then
    .ok [.noOp c.id] { st with count_up_to_date := st.count_up_to_date + 1 }
  else
    match attemptCall env "Failed to update card"
        (.updateCard c.id a.due_at a.submitted nd) st with
    | .ok ds st' => .ok ds { st' with count_updated := st'.count_updated + 1 }
    | e => e

/-- The update loop over the matched cards. -/
def syncExistingCards (env : Env) (a : Assignment) (nd : String) :
    List Card → St → Outcome
  | [], st => .ok [] st
  | c :: cs, st =>
    (syncExistingCard env a nd c st).seq (syncExistingCards env a nd cs)

/-- The create branch (`canvas_trello_sync.rs:259-287`): create the card,
then set the `Canvas URL` custom field on the new card's id, then count it
as created. -/
def createNewCard (env : Env) (a : Assignment) (nd labelId url : String)
    (st : St) : Outcome :=
  let newId := env.fresh_card_id st.createsDone
  (attemptCall env "Failed to create card"
      (.createCard newId env.new_card_list_id [labelId] a.name nd a.due_at
        a.submitted) st).seq
    (fun st1 =>
      let st1 := { st1 with createsDone := st1.createsDone + 1 }
      (attemptCall env "Failed to set Canvas URL custom field"
          (.setTrackingField newId env.canvas_url_field_id url) st1).seq
        (fun st2 => .ok [] { st2 with count_created := st2.count_created + 1 }))

/-- Model of `sync_assignment` (`canvas_trello_sync.rs:173-290`).  The
`unwrap` on `set_scheme` is a panic, not an error.  The label lookup
happens here, per assignment, and is the `NotFound`-style error of
`eyre::ContextCompat::wrap_err_with`. -/
def sync_assignment (env : Env) (m : Mapping) (a : Assignment) (st : St) :
    Outcome :=
  match a.html_url.setSchemeHttps with
  | none => .panicked [] st
  | some u =>
    match env.board.labels.find? (fun l => l.name == m.trello_label_name) with
    | none =>
      .err ["Could not find label " ++ rustDebug m.trello_label_name] [] st
    | some label =>
      let nd := newDescription env a
      let matched := matchCards env.board.cards env.canvas_url_field_id u.render
      (syncExistingCards env a nd matched st).seq (fun st1 =>
        if matched.isEmpty then createNewCard env a nd label.id u.render st1
        else .ok [] st1)

/-- The assignment loop of `sync_mapping` (`canvas_trello_sync.rs:162-168`):
count the assignment, sync it, wrap any error with the assignment name. -/
def syncAssignments (env : Env) (m : Mapping) :
    List Assignment → St → Outcome
  | [], st => .ok [] st
  | a :: rest, st =>
    let st := { st with count_assignments := st.count_assignments + 1 }
    (wrapErr ("Failed to sync assignment: " ++ rustDebug a.name)
        (sync_assignment env m a st)).seq
      (syncAssignments env m rest)

/-- Model of `sync_mapping` (`canvas_trello_sync.rs:153-171`): fetch the
assignment list for the mapping's course, then loop. -/
def sync_mapping (env : Env) (m : Mapping) (st : St) : Outcome :=
  match env.get_assignments m.canvas_course_id with
  | .error e => .err ["Failed to fetch assignment list", e] [] st
  | .ok assignments => syncAssignments env m assignments st

/-- The mapping loop of `main` (`canvas_trello_sync.rs:119-124`): each
mapping synced in turn, errors wrapped with the mapping's label name. -/
def syncMappings (env : Env) : List Mapping → St → Outcome
  | [], st => .ok [] st
  | m :: rest, st =>
    (wrapErr ("Failed to sync mapping: " ++ rustDebug m.trello_label_name)
        (sync_mapping env m st)).seq
      (syncMappings env rest)

/-- The field patch of an `UpdateCard` mutation
(`canvas_trello_sync.rs:247-251`): due, dueComplete and desc, a full patch. -/
def updateCardFields (due : Int) (dueComplete : Bool) (desc : String)
    (c : Card) : Card :=
  { c with due := some due, due_complete := dueComplete, desc := desc }

/-- The effect of one applied mutation on the remote board, as the next
run would observe it.  A created card starts with no custom-field items;
setting a custom field replaces that card's value for the field. -/
def applyDecision (b : Board) : Decision → Board
  | .noOp _ => b
  | .updateCard cid due dc desc =>
    { b with cards := b.cards.map (fun c =>
        if c.id == cid then updateCardFields due dc desc c else c) }
  | .createCard newId _listId _labelIds name desc due dc =>
    { b with cards := b.cards ++
        [{ id := newId, name := name, desc := desc, due := some due,
           due_complete := dc, labels := [], custom_field_items := [] }] }
  | .setTrackingField cid fieldId v =>
    { b with cards := b.cards.map (fun c =>
        if c.id == cid then
          { c with custom_field_items :=
              c.custom_field_items.filter (fun i => !(i.id_custom_field == fieldId))
                ++ [{ id := "", value := .text v, id_custom_field := fieldId }] }
        else c) }

/-- The remote board after a stream of applied mutations. -/
def applyDecisions (b : Board) (ds : List Decision) : Board :=
  ds.foldl applyDecision b

/-- The canonical url of an assignment: its url with the scheme overwritten
to `https`, serialized. -/
def canonicalUrl (a : Assignment) : String :=
  ({ a.html_url with scheme := "https" } : Url).render

/-- The cards of the run's snapshot matched to an assignment. -/
def matchedOf (env : Env) (a : Assignment) : List Card :=
  matchCards env.board.cards env.canvas_url_field_id (canonicalUrl a)

/-- The two decisions of the create branch for an assignment, when `k`
cards were created before it in the run. -/
def assignCreateDecisions (env : Env) (a : Assignment) (labelId : String)
    (k : Nat) : List Decision :=
  [.createCard (env.fresh_card_id k) env.new_card_list_id [labelId] a.name
     (newDescription env a) a.due_at a.submitted,
   .setTrackingField (env.fresh_card_id k) env.canvas_url_field_id
     (canonicalUrl a)]

/-- The decision stream `sync_assignment` emits for one assignment on a
failure-free transport: one per-card decision per matched card, then the
create pair when nothing matched. -/
def assignDecisions (env : Env) (a : Assignment) (labelId : String)
    (k : Nat) : List Decision :=
  (matchedOf env a).map (decideCard a (newDescription env a)) ++
    (if (matchedOf env a).isEmpty then assignCreateDecisions env a labelId k
     else [])

/-- The state after `sync_assignment` succeeds for one assignment on a
failure-free transport. -/
def assignStAfter (env : Env) (a : Assignment) (st : St) : St :=
  { st with
      calls := st.calls +
        (matchedOf env a).countP (shouldUpdateCard a (newDescription env a)) +
        (if (matchedOf env a).isEmpty then 2 else 0),
      createsDone := st.createsDone +
        (if (matchedOf env a).isEmpty then 1 else 0),
      count_created := st.count_created +
        (if (matchedOf env a).isEmpty then 1 else 0),
      count_updated := st.count_updated +
        (matchedOf env a).countP (shouldUpdateCard a (newDescription env a)),
      count_up_to_date := st.count_up_to_date +
        (matchedOf env a).countP
          (fun c => !(shouldUpdateCard a (newDescription env a) c)) }

/-- The decision stream of a whole failure-free run over an assignment
list, threading the count of created cards through the fresh ids. -/
def runDecisions (env : Env) (labelId : String) :
    List Assignment → Nat → List Decision
  | [], _ => []
  | a :: rest, k =>
    assignDecisions env a labelId k ++
      runDecisions env labelId rest
        (k + (if (matchedOf env a).isEmpty then 1 else 0))

/-- How many cards a run over `as2` creates. -/
def createsCount (env : Env) (as2 : List Assignment) : Nat :=
  as2.countP (fun a => (matchedOf env a).isEmpty)

/-- The first assignment of `as2` whose canonical url equals the card's
tracking value. -/
def findAssign (env : Env) (as2 : List Assignment) (c : Card) :
    Option Assignment :=
  as2.find? (fun a =>
    trackingValue env.canvas_url_field_id c == some (canonicalUrl a))

/-- What a pre-existing snapshot card looks like after the run's mutations
were applied: patched by the assignment it is matched to, if that
assignment found it stale; untouched otherwise. -/
def finalCard (env : Env) (as2 : List Assignment) (c : Card) : Card :=
  match findAssign env as2 c with
  | some a =>
    if shouldUpdateCard a (newDescription env a) c then
      updateCardFields a.due_at a.submitted (newDescription env a) c
    else c
  | none => c

/-- The card the create branch for `a` leaves on the board after both the
creation and the tracking-field call were applied. -/
def mkCreated (env : Env) (a : Assignment) (k : Nat) : Card :=
  { id := env.fresh_card_id k, name := a.name, desc := newDescription env a,
    due := some a.due_at, due_complete := a.submitted, labels := [],
    custom_field_items :=
      [{ id := "", value := .text (canonicalUrl a),
         id_custom_field := env.canvas_url_field_id }] }

/-- The cards created by a run over `as2`, in order, with fresh ids
starting at `k`. -/
def createdCards (env : Env) : List Assignment → Nat → List Card
  | [], _ => []
  | a :: rest, k =>
    if (matchedOf env a).isEmpty then
      mkCreated env a k :: createdCards env rest (k + 1)
    else createdCards env rest k

/-- The board after a run over the prefix `done` was applied. -/
def doneBoard (env : Env) (done : List Assignment) (k0 : Nat) : Board :=
  { env.board with
      cards := env.board.cards.map (finalCard env done) ++
        createdCards env done k0 }

/-- Pointwise effect of the decision for matched card `c` on an arbitrary
board card `c'`. -/
def patchOne (a : Assignment) (nd : String) (c c' : Card) : Card :=
  if shouldUpdateCard a nd c && (c'.id == c.id) then
    updateCardFields a.due_at a.submitted nd c'
  else c'

/-- Pointwise effect of the whole update loop over `cs` on a board card. -/
def patchAll (a : Assignment) (nd : String) (cs : List Card) (c' : Card) :
    Card :=
  cs.foldl (fun x c => patchOne a nd c x) c'

/-! ### Concrete instances used by witnesses and counterexamples -/

/-- Deterministic fresh-id supply for the concrete instances. -/
def wFresh (n : Nat) : String := String.mk (List.replicate (n + 1) 'n')

def wUrl : Url := ⟨"http", false, "lms/a/1"⟩

def wAssign : Assignment := ⟨"1", "HW1", none, 0, wUrl, false⟩

def wMapping : Mapping := ⟨"c1", "Math"⟩

/-- A stale matched card: tracking value set, stored due `none`. -/
def wCard : Card :=
  ⟨"X", "HW1", "notes", none, false, [],
    [⟨"i1", .text "https://lms/a/1", "F"⟩]⟩

/-- A matched card with a manually edited description and a stale due. -/
def wCardManual : Card :=
  ⟨"Y", "HW1", "my notes", none, false, [],
    [⟨"i1", .text "https://lms/a/1", "F"⟩]⟩

def wBoard (cs : List Card) : Board :=
  ⟨cs, [⟨"F", "Canvas URL"⟩], [⟨"lid", "Math"⟩], [⟨"LIST", "Incoming"⟩]⟩

def wEnv (cs : List Card) : Env :=
  { board := wBoard cs
    canvas_url_field_id := "F"
    new_card_list_id := "LIST"
    parse_html := fun _ => ""
    get_assignments := fun _ => .ok []
    trello_fails := fun _ => false
    fresh_card_id := wFresh }

/-- A managed card (header description) whose completion flag is stale. -/
def wCardComplete : Card := ⟨"Z", "HW1", descHeader, some 0, true, [], []⟩

/-- A board with no labels, and a course with one assignment; exercises
the label-not-found error path. -/
def wEnvNoLabel : Env :=
  { board := ⟨[], [⟨"F", "Canvas URL"⟩], [], [⟨"LIST", "Incoming"⟩]⟩
    canvas_url_field_id := "F"
    new_card_list_id := "LIST"
    parse_html := fun _ => ""
    get_assignments := fun _ => .ok [wAssign]
    trello_fails := fun _ => false
    fresh_card_id := wFresh }

/-- As `wEnvNoLabel` but the course has no assignments. -/
def wEnvNoLabelEmptyCourse : Env :=
  { wEnvNoLabel with get_assignments := fun _ => .ok [] }

/-- A url that cannot carry the `https` scheme. -/
def wUrlBad : Url := ⟨"mailto", true, "x"⟩

def wAssignBad : Assignment := ⟨"9", "Broken", none, 0, wUrlBad, false⟩

/-- Two distinct assignments sharing one canonical url but with different
due timestamps. -/
def wAssignDupA : Assignment :=
  ⟨"1", "A1", none, 0, ⟨"http", false, "x/1"⟩, false⟩

def wAssignDupB : Assignment :=
  ⟨"2", "A2", none, 1, ⟨"http", false, "x/1"⟩, false⟩

/-- First run of the duplicate-url scenario, on an empty board. -/
def wDupRun1 : Outcome :=
  syncAssignments (wEnv []) wMapping [wAssignDupA, wAssignDupB] st0

/-- The environment whose board has the first run's mutations applied. -/
def wDupEnv2 : Env :=
  { wEnv [] with
      board := applyDecisions (wEnv []).board wDupRun1.decisionList }

/-- Second run of the duplicate-url scenario, with no external changes. -/
def wDupRun2 : Outcome :=
  syncAssignments wDupEnv2 wMapping [wAssignDupA, wAssignDupB] st0

/-! ### Basic lemmas about the embedding -/

theorem Outcome.prepend_nil (o : Outcome) : o.prepend [] = o := by
  cases o <;> simp [Outcome.prepend]

theorem setSchemeHttps_some {u v : Url} (h : u.setSchemeHttps = some v) :
    v = { u with scheme := "https" } ∧ u.cannot_be_a_base = false ∧
      specialSchemes.contains u.scheme = true := by
  unfold Url.setSchemeHttps at h
  split_ifs at h with h1 h2
  exact ⟨(Option.some_inj.mp h).symm, by simpa using h1, h2⟩

theorem setSchemeHttps_none {u : Url} :
    u.setSchemeHttps = none ↔
      (u.cannot_be_a_base = true ∨ specialSchemes.contains u.scheme = false) := by
  unfold Url.setSchemeHttps
  split_ifs with h1 h2 <;> simp_all

theorem setSchemeHttps_render {a : Assignment} {u : Url}
    (h : a.html_url.setSchemeHttps = some u) : u.render = canonicalUrl a := by
  obtain ⟨hv, -, -⟩ := setSchemeHttps_some h
  subst hv
  rfl

theorem attemptCall_ok {env : Env} (msg : String) (d : Decision) {st : St}
    (hF : env.trello_fails st.calls = false) :
    attemptCall env msg d st = .ok [d] { st with calls := st.calls + 1 } := by
  simp [attemptCall, hF]

theorem syncExistingCards_ok (env : Env) (a : Assignment) (nd : String)
    (hF : ∀ n, env.trello_fails n = false) :
    ∀ (cs : List Card) (st : St),
      syncExistingCards env a nd cs st =
        .ok (cs.map (decideCard a nd))
          { st with
              calls := st.calls + cs.countP (shouldUpdateCard a nd),
              count_updated :=
                st.count_updated + cs.countP (shouldUpdateCard a nd),
              count_up_to_date := st.count_up_to_date +
                cs.countP (fun c => !(shouldUpdateCard a nd c)) } := by
  intro cs
  induction cs with
  | nil => intro st; simp [syncExistingCards]
  | cons c cs ih =>
    intro st
    rw [syncExistingCards]
    cases h : shouldUpdateCard a nd c with
    | false =>
      rw [syncExistingCard, h]
      simp only [Bool.not_false, if_true, Outcome.seq, ih, Outcome.prepend]
      simp [decideCard, h, List.countP_cons]
      omega
    | true =>
      rw [syncExistingCard, h]
      simp only [Bool.not_true, Bool.false_eq_true, if_false,
        attemptCall_ok _ _ (hF st.calls), Outcome.seq, ih, Outcome.prepend]
      simp [decideCard, h, List.countP_cons]
      omega

theorem sync_assignment_ok {env : Env} {m : Mapping} {a : Assignment}
    {u : Url} {lab : Label} (st : St)
    (hF : ∀ n, env.trello_fails n = false)
    (hs : a.html_url.setSchemeHttps = some u)
    (hl : env.board.labels.find? (fun l => l.name == m.trello_label_name) =
      some lab) :
    sync_assignment env m a st =
      .ok (assignDecisions env a lab.id st.createsDone)
        (assignStAfter env a st) := by
  have hren := setSchemeHttps_render hs
  simp only [sync_assignment, hs, hl, hren]
  rw [syncExistingCards_ok env a (newDescription env a) hF]
  simp only [Outcome.seq]
  cases hmE : (matchCards env.board.cards env.canvas_url_field_id
      (canonicalUrl a)).isEmpty with
  | true =>
    have hnil := List.isEmpty_iff.mp hmE
    simp only [hnil, List.map_nil, List.countP_nil, Nat.add_zero, if_true,
      createNewCard]
    rw [attemptCall_ok _ _ (hF _)]
    simp only [Outcome.seq, Outcome.prepend]
    rw [attemptCall_ok _ _ (hF _)]
    simp only [Outcome.seq, Outcome.prepend]
    simp [assignDecisions, assignStAfter, matchedOf, hnil, hmE,
      assignCreateDecisions, St.mk.injEq]
  | false =>
    simp only [Bool.false_eq_true, if_false, Outcome.prepend, List.append_nil]
    simp [assignDecisions, assignStAfter, matchedOf, hmE, St.mk.injEq]

theorem wrapErr_ok (msg : String) (ds : List Decision) (st : St) :
    wrapErr msg (.ok ds st) = .ok ds st := rfl

theorem wrapErr_err (msg : String) (ctx : List String) (ds : List Decision)
    (st : St) : wrapErr msg (.err ctx ds st) = .err (msg :: ctx) ds st := rfl

@[simp] theorem Outcome.prepend_okc (ds ds2 : List Decision) (st : St) :
    Outcome.prepend ds (.ok ds2 st) = .ok (ds ++ ds2) st := rfl

@[simp] theorem Outcome.prepend_errc (ds : List Decision) (ctx : List String)
    (ds2 : List Decision) (st : St) :
    Outcome.prepend ds (.err ctx ds2 st) = .err ctx (ds ++ ds2) st := rfl

@[simp] theorem Outcome.prepend_panc (ds ds2 : List Decision) (st : St) :
    Outcome.prepend ds (.panicked ds2 st) = .panicked (ds ++ ds2) st := rfl

@[simp] theorem Outcome.seq_okc (ds : List Decision) (st : St)
    (f : St → Outcome) : (Outcome.ok ds st).seq f = (f st).prepend ds := rfl

@[simp] theorem Outcome.seq_errc (ctx : List String) (ds : List Decision)
    (st : St) (f : St → Outcome) :
    (Outcome.err ctx ds st).seq f = .err ctx ds st := rfl

@[simp] theorem Outcome.seq_panc (ds : List Decision) (st : St)
    (f : St → Outcome) : (Outcome.panicked ds st).seq f = .panicked ds st := rfl

theorem Outcome.prepend_prepend (d1 d2 : List Decision) (o : Outcome) :
    (o.prepend d2).prepend d1 = o.prepend (d1 ++ d2) := by
  cases o <;> simp [Outcome.prepend]

theorem Outcome.seq_prepend (ds : List Decision) (o : Outcome)
    (g : St → Outcome) : (o.prepend ds).seq g = (o.seq g).prepend ds := by
  cases o with
  | ok ds2 st =>
    simp only [Outcome.prepend_okc, Outcome.seq_okc, Outcome.prepend_prepend]
  | err ctx ds2 st => simp
  | panicked ds2 st => simp

theorem syncAssignments_ok {env : Env} {m : Mapping} {lab : Label}
    (hF : ∀ n, env.trello_fails n = false)
    (hl : env.board.labels.find? (fun l => l.name == m.trello_label_name) =
      some lab) (as : List Assignment) :
    ∀ (st : St), (∀ a ∈ as, (a.html_url.setSchemeHttps).isSome = true) →
      ∃ st', syncAssignments env m as st =
          .ok (runDecisions env lab.id as st.createsDone) st' ∧
        st'.createsDone = st.createsDone + createsCount env as := by
  induction as with
  | nil =>
    intro st _
    exact ⟨st, by simp [syncAssignments, runDecisions],
      by simp [createsCount]⟩
  | cons a rest ih =>
    intro st hss
    obtain ⟨u, hu⟩ :=
      Option.isSome_iff_exists.mp (hss a (List.mem_cons_self a rest))
    have h1 := sync_assignment_ok
      { st with count_assignments := st.count_assignments + 1 } hF hu hl
    obtain ⟨st', h2, h3⟩ := ih (assignStAfter env a
        { st with count_assignments := st.count_assignments + 1 })
      (fun a' ha' => hss a' (List.mem_cons_of_mem _ ha'))
    refine ⟨st', ?_, ?_⟩
    · simp only [syncAssignments, h1, wrapErr_ok, Outcome.seq, h2,
        Outcome.prepend, runDecisions]
      simp [assignStAfter]
    · rw [h3]
      simp [assignStAfter, createsCount, List.countP_cons]
      omega

theorem syncAssignments_append (env : Env) (m : Mapping)
    (l1 l2 : List Assignment) :
    ∀ st, syncAssignments env m (l1 ++ l2) st =
      (syncAssignments env m l1 st).seq (syncAssignments env m l2) := by
  induction l1 with
  | nil =>
    intro st
    simp [syncAssignments, Outcome.seq, Outcome.prepend_nil]
  | cons a l1 ih =>
    intro st
    simp only [List.cons_append, syncAssignments]
    cases hw : wrapErr ("Failed to sync assignment: " ++ rustDebug a.name)
        (sync_assignment env m a
          { st with count_assignments := st.count_assignments + 1 }) with
    | ok ds st2 => simp only [Outcome.seq_okc, List.append_eq, ih st2, Outcome.seq_prepend]
    | err ctx ds st2 => simp
    | panicked ds st2 => simp

theorem syncMappings_append (env : Env) (l1 l2 : List Mapping) :
    ∀ st, syncMappings env (l1 ++ l2) st =
      (syncMappings env l1 st).seq (syncMappings env l2) := by
  induction l1 with
  | nil =>
    intro st
    simp [syncMappings, Outcome.seq, Outcome.prepend_nil]
  | cons m l1 ih =>
    intro st
    simp only [List.cons_append, syncMappings]
    cases hw : wrapErr ("Failed to sync mapping: " ++ rustDebug m.trello_label_name)
        (sync_mapping env m st) with
    | ok ds st2 => simp only [Outcome.seq_okc, List.append_eq, ih st2, Outcome.seq_prepend]
    | err ctx ds st2 => simp
    | panicked ds st2 => simp

/-! ### How applying a run's mutations transforms the board -/

theorem applyDecision_labels (b : Board) (d : Decision) :
    (applyDecision b d).labels = b.labels := by
  cases d <;> rfl

theorem applyDecisions_labels (ds : List Decision) :
    ∀ b : Board, (applyDecisions b ds).labels = b.labels := by
  induction ds with
  | nil => intro b; rfl
  | cons d ds ih =>
    intro b
    simp only [applyDecisions, List.foldl_cons]
    rw [← applyDecisions, ih, applyDecision_labels]

theorem trackingValue_updateCardFields (f : String) (due : Int) (dc : Bool)
    (desc : String) (c : Card) :
    trackingValue f (updateCardFields due dc desc c) = trackingValue f c := rfl

theorem updateCardFields_id (due : Int) (dc : Bool) (desc : String)
    (c : Card) : (updateCardFields due dc desc c).id = c.id := rfl

theorem finalCard_id (env : Env) (as2 : List Assignment) (c : Card) :
    (finalCard env as2 c).id = c.id := by
  unfold finalCard
  cases findAssign env as2 c with
  | none => rfl
  | some a => dsimp only; split <;> rfl

theorem trackingValue_finalCard (f : String) (env : Env)
    (as2 : List Assignment) (c : Card) :
    trackingValue f (finalCard env as2 c) = trackingValue f c := by
  unfold finalCard
  cases findAssign env as2 c with
  | none => rfl
  | some a => dsimp only; split <;> rfl

theorem mkCreated_id (env : Env) (a : Assignment) (k : Nat) :
    (mkCreated env a k).id = env.fresh_card_id k := rfl

theorem trackingValue_mkCreated (env : Env) (a : Assignment) (k : Nat) :
    trackingValue env.canvas_url_field_id (mkCreated env a k) =
      some (canonicalUrl a) := by
  simp [trackingValue, mkCreated, List.find?, CustomFieldItem.as_str]

theorem createdCards_append (env : Env) (a : Assignment) :
    ∀ (done : List Assignment) (k0 : Nat),
      createdCards env (done ++ [a]) k0 =
        createdCards env done k0 ++
          (if (matchedOf env a).isEmpty then
            [mkCreated env a (k0 + createsCount env done)] else []) := by
  intro done
  induction done with
  | nil =>
    intro k0
    cases ha : (matchedOf env a).isEmpty <;>
      simp [createdCards, createsCount, ha]
  | cons b done ih =>
    intro k0
    have hcc : createsCount env (b :: done) =
        createsCount env done +
          (if (matchedOf env b).isEmpty then 1 else 0) := by
      simp [createsCount, List.countP_cons]
    simp only [List.cons_append, createdCards, List.append_eq]
    cases hb : (matchedOf env b).isEmpty with
    | true =>
      rw [if_pos rfl, if_pos rfl, ih (k0 + 1), List.cons_append]
      have h2 : k0 + 1 + createsCount env done =
          k0 + createsCount env (b :: done) := by
        rw [hcc, hb]
        simp
        omega
      rw [h2]
    | false =>
      rw [if_neg (by simp), if_neg (by simp), ih k0]
      have h2 : k0 + createsCount env done =
          k0 + createsCount env (b :: done) := by
        rw [hcc, hb]
        simp
      rw [h2]

theorem createdCards_mem (env : Env) :
    ∀ (as2 : List Assignment) (k0 : Nat) (c : Card),
      c ∈ createdCards env as2 k0 →
      ∃ a j, a ∈ as2 ∧ c = mkCreated env a j ∧ k0 ≤ j ∧
        j < k0 + createsCount env as2 := by
  intro as2
  induction as2 with
  | nil => intro k0 c h; simp [createdCards] at h
  | cons a rest ih =>
    intro k0 c h
    rw [createdCards] at h
    cases ha : (matchedOf env a).isEmpty with
    | true =>
      rw [ha, if_pos rfl] at h
      rcases List.mem_cons.mp h with rfl | h
      · refine ⟨a, k0, List.mem_cons_self a rest, rfl, Nat.le_refl _, ?_⟩
        simp [createsCount, List.countP_cons, ha]
      · obtain ⟨a', j, ha', hc, hj1, hj2⟩ := ih (k0 + 1) c h
        refine ⟨a', j, List.mem_cons_of_mem _ ha', hc, by omega, ?_⟩
        simp [createsCount, List.countP_cons, ha] at hj2 ⊢
        omega
    | false =>
      rw [ha] at h
      simp only [Bool.false_eq_true, if_false] at h
      obtain ⟨a', j, ha', hc, hj1, hj2⟩ := ih k0 c h
      refine ⟨a', j, List.mem_cons_of_mem _ ha', hc, hj1, ?_⟩
      simp only [createsCount, List.countP_cons, ha]
      simp only [createsCount] at hj2
      omega

theorem createdCards_mem_of (env : Env) :
    ∀ (as2 : List Assignment) (k0 : Nat) (a : Assignment),
      a ∈ as2 → (matchedOf env a).isEmpty = true →
      ∃ j, mkCreated env a j ∈ createdCards env as2 k0 := by
  intro as2
  induction as2 with
  | nil => intro k0 a ha; simp at ha
  | cons b rest ih =>
    intro k0 a ha hme
    rw [createdCards]
    rcases List.mem_cons.mp ha with rfl | ha
    · exact ⟨k0, by rw [hme, if_pos rfl]; exact List.mem_cons_self _ _⟩
    · cases hb : (matchedOf env b).isEmpty with
      | true =>
        obtain ⟨j, hj⟩ := ih (k0 + 1) a ha hme
        exact ⟨j, by rw [if_pos rfl]; exact List.mem_cons_of_mem _ hj⟩
      | false =>
        obtain ⟨j, hj⟩ := ih k0 a ha hme
        exact ⟨j, by simp only [Bool.false_eq_true, if_false]; exact hj⟩

theorem patchAll_nil (a : Assignment) (nd : String) (x : Card) :
    patchAll a nd [] x = x := rfl

theorem patchAll_cons (a : Assignment) (nd : String) (c1 : Card)
    (cs : List Card) (x : Card) :
    patchAll a nd (c1 :: cs) x = patchAll a nd cs (patchOne a nd c1 x) := rfl

theorem patchOne_ne (a : Assignment) (nd : String) (c x : Card)
    (h : ¬(x.id = c.id)) : patchOne a nd c x = x := by
  unfold patchOne
  have hx : (x.id == c.id) = false := by simp [h]
  simp [hx]

theorem patchOne_self (a : Assignment) (nd : String) (c : Card) :
    patchOne a nd c c =
      (if shouldUpdateCard a nd c then
        updateCardFields a.due_at a.submitted nd c else c) := by
  unfold patchOne
  cases h : shouldUpdateCard a nd c <;> simp [h]

theorem patchAll_not_mem (a : Assignment) (nd : String) :
    ∀ (cs : List Card) (x : Card), (∀ c ∈ cs, ¬(x.id = c.id)) →
      patchAll a nd cs x = x := by
  intro cs
  induction cs with
  | nil => intro x _; rfl
  | cons c cs ih =>
    intro x hx
    rw [patchAll_cons, patchOne_ne a nd c x (hx c (List.mem_cons_self c cs))]
    exact ih x (fun c' hc' => hx c' (List.mem_cons_of_mem _ hc'))

theorem patchAll_mem (a : Assignment) (nd : String) :
    ∀ (cs : List Card), (cs.map Card.id).Nodup →
      ∀ c ∈ cs, patchAll a nd cs c =
        (if shouldUpdateCard a nd c then
          updateCardFields a.due_at a.submitted nd c else c) := by
  intro cs
  induction cs with
  | nil => intro _ c hc; simp at hc
  | cons c1 cs ih =>
    intro hnd c hc
    rw [List.map_cons] at hnd
    have hpair : c1.id ∉ cs.map Card.id ∧ (cs.map Card.id).Nodup :=
      List.nodup_cons.mp hnd
    rcases List.mem_cons.mp hc with rfl | hc
    · rw [patchAll_cons, patchOne_self]
      have hid : ∀ c' ∈ cs, ¬((if shouldUpdateCard a nd c then
          updateCardFields a.due_at a.submitted nd c else c).id = c'.id) := by
        intro c' hc' heq
        apply hpair.1
        have : (if shouldUpdateCard a nd c then
            updateCardFields a.due_at a.submitted nd c else c).id = c.id := by
          cases h : shouldUpdateCard a nd c <;> simp [updateCardFields_id]
        rw [this] at heq
        rw [heq]
        exact List.mem_map_of_mem Card.id hc'
      exact patchAll_not_mem a nd cs _ hid
    · have hne : ¬(c.id = c1.id) := by
        intro heq
        apply hpair.1
        rw [← heq]
        exact List.mem_map_of_mem Card.id hc
      rw [patchAll_cons, patchOne_ne a nd c1 c hne]
      exact ih hpair.2 c hc

theorem applyDecision_decideCard (b : Board) (a : Assignment) (nd : String)
    (c : Card) :
    applyDecision b (decideCard a nd c) =
      { b with cards := b.cards.map (patchOne a nd c) } := by
  unfold decideCard
  cases h : shouldUpdateCard a nd c with
  | true =>
    rw [if_pos rfl]
    simp only [applyDecision]
    congr 1
    apply List.map_congr_left
    intro x _
    unfold patchOne
    simp [h]
  | false =>
    rw [if_neg (by simp)]
    simp only [applyDecision]
    have h2 : b.cards.map (patchOne a nd c) = b.cards := by
      have h3 : ∀ x ∈ b.cards, patchOne a nd c x = x := by
        intro x _
        unfold patchOne
        simp [h]
      rw [List.map_congr_left h3]
      simp
    rw [h2]

theorem applyDecisions_map_decide (a : Assignment) (nd : String) :
    ∀ (cs : List Card) (b : Board),
      applyDecisions b (cs.map (decideCard a nd)) =
        { b with cards := b.cards.map (patchAll a nd cs) } := by
  intro cs
  induction cs with
  | nil =>
    intro b
    have h2 : b.cards.map (patchAll a nd []) = b.cards := by
      have h3 : ∀ x ∈ b.cards, patchAll a nd [] x = x := fun x _ => rfl
      rw [List.map_congr_left h3]
      simp
    simp [applyDecisions, h2]
  | cons c cs ih =>
    intro b
    simp only [List.map_cons, applyDecisions, List.foldl_cons]
    rw [show List.foldl applyDecision (applyDecision b (decideCard a nd c))
        (cs.map (decideCard a nd)) =
      applyDecisions (applyDecision b (decideCard a nd c))
        (cs.map (decideCard a nd)) from rfl]
    rw [applyDecision_decideCard, ih]
    simp only [List.map_map]
    rfl

theorem mem_matchedOf (env : Env) (a : Assignment) (c : Card) :
    c ∈ matchedOf env a ↔ c ∈ env.board.cards ∧
      trackingValue env.canvas_url_field_id c = some (canonicalUrl a) := by
  unfold matchedOf matchCards
  rw [List.mem_filter]
  simp [beq_iff_eq]

theorem matchedOf_sublist_ids (env : Env) (a : Assignment)
    (hIds : (env.board.cards.map Card.id).Nodup) :
    ((matchedOf env a).map Card.id).Nodup := by
  apply List.Nodup.sublist (List.Sublist.map Card.id ?_) hIds
  exact List.filter_sublist env.board.cards

theorem findAssign_append_single (env : Env) (done : List Assignment)
    (a : Assignment) (c : Card) :
    findAssign env (done ++ [a]) c =
      (findAssign env done c).or
        (if trackingValue env.canvas_url_field_id c == some (canonicalUrl a)
         then some a else none) := by
  unfold findAssign
  rw [List.find?_append]
  congr 1
  cases h : (trackingValue env.canvas_url_field_id c == some (canonicalUrl a))
  · rw [List.find?_cons_of_neg
      (p := fun x =>
        trackingValue env.canvas_url_field_id c == some (canonicalUrl x))
      _ (by simp [h]), if_neg (by simp [h])]
    rfl
  · rw [List.find?_cons_of_pos
      (p := fun x =>
        trackingValue env.canvas_url_field_id c == some (canonicalUrl x))
      _ h]
    simp

theorem findAssign_eq_none (env : Env) (done : List Assignment) (c : Card)
    (h : ∀ a' ∈ done,
      (trackingValue env.canvas_url_field_id c == some (canonicalUrl a')) =
        false) :
    findAssign env done c = none := by
  unfold findAssign
  rw [List.find?_eq_none]
  intro a' ha'
  simp [h a' ha']

theorem finalCard_append_not (env : Env) (done : List Assignment)
    (a : Assignment) (c : Card)
    (h : (trackingValue env.canvas_url_field_id c ==
      some (canonicalUrl a)) = false) :
    finalCard env (done ++ [a]) c = finalCard env done c := by
  unfold finalCard
  rw [findAssign_append_single, h]
  simp

theorem finalCard_append_matched (env : Env) (done : List Assignment)
    (a : Assignment) (c : Card)
    (hnone : findAssign env done c = none)
    (h : (trackingValue env.canvas_url_field_id c ==
      some (canonicalUrl a)) = true) :
    finalCard env (done ++ [a]) c =
      (if shouldUpdateCard a (newDescription env a) c then
        updateCardFields a.due_at a.submitted (newDescription env a) c
       else c) := by
  unfold finalCard
  rw [findAssign_append_single, hnone, h]
  simp

theorem applyAssign_matched (env : Env) (done : List Assignment)
    (a : Assignment) (k0 : Nat)
    (hIds : (env.board.cards.map Card.id).Nodup)
    (hFreshNew : ∀ i, ∀ c ∈ env.board.cards, ¬(env.fresh_card_id i = c.id))
    (hdone : ∀ a' ∈ done, ¬(canonicalUrl a' = canonicalUrl a))
    (hne : (matchedOf env a).isEmpty = false) :
    applyDecisions (doneBoard env done k0)
      ((matchedOf env a).map (decideCard a (newDescription env a))) =
      doneBoard env (done ++ [a]) k0 := by
  rw [applyDecisions_map_decide]
  simp only [doneBoard]
  rw [createdCards_append, hne]
  simp only [Bool.false_eq_true, if_false, List.append_nil]
  congr 1
  rw [List.map_append]
  congr 1
  · rw [List.map_map]
    apply List.map_congr_left
    intro c hc
    simp only [Function.comp_apply]
    by_cases hm : trackingValue env.canvas_url_field_id c =
        some (canonicalUrl a)
    · have hcm : c ∈ matchedOf env a := (mem_matchedOf env a c).mpr ⟨hc, hm⟩
      have hfd : findAssign env done c = none := by
        apply findAssign_eq_none
        intro a' ha'
        have hno : ¬(trackingValue env.canvas_url_field_id c =
            some (canonicalUrl a')) := by
          rw [hm]
          intro hcon
          exact hdone a' ha' (Option.some_inj.mp hcon).symm
        simp [hno]
      have hfc : finalCard env done c = c := by
        unfold finalCard
        rw [hfd]
      rw [hfc, patchAll_mem a (newDescription env a) (matchedOf env a)
        (matchedOf_sublist_ids env a hIds) c hcm,
        finalCard_append_matched env done a c hfd (by simp [hm])]
    · have hf : (trackingValue env.canvas_url_field_id c ==
          some (canonicalUrl a)) = false := by simp [hm]
      have hnm : ∀ c' ∈ matchedOf env a,
          ¬((finalCard env done c).id = c'.id) := by
        intro c' hc' heq
        rw [finalCard_id] at heq
        have hc'b : c' ∈ env.board.cards := ((mem_matchedOf env a c').mp hc').1
        have hcc' : c = c' := List.inj_on_of_nodup_map hIds hc hc'b heq
        subst hcc'
        exact hm ((mem_matchedOf env a c).mp hc').2
      rw [patchAll_not_mem a (newDescription env a) (matchedOf env a) _ hnm,
        finalCard_append_not env done a c hf]
  · have hid : ∀ x ∈ createdCards env done k0,
        patchAll a (newDescription env a) (matchedOf env a) x = x := by
      intro x hx
      apply patchAll_not_mem
      intro c' hc' heq
      obtain ⟨a', j, _, hx', _, _⟩ := createdCards_mem env done k0 x hx
      rw [hx', mkCreated_id] at heq
      exact hFreshNew j c' ((mem_matchedOf env a c').mp hc').1 heq
    rw [List.map_congr_left hid]
    simp

theorem applyAssign_empty (env : Env) (labId : String)
    (done : List Assignment) (a : Assignment) (k0 : Nat)
    (hFreshInj : ∀ i j, env.fresh_card_id i = env.fresh_card_id j → i = j)
    (hFreshNew : ∀ i, ∀ c ∈ env.board.cards, ¬(env.fresh_card_id i = c.id))
    (he : (matchedOf env a).isEmpty = true) :
    applyDecisions (doneBoard env done k0)
      (assignCreateDecisions env a labId (k0 + createsCount env done)) =
      doneBoard env (done ++ [a]) k0 := by
  have hnil : matchedOf env a = [] := List.isEmpty_iff.mp he
  have hnp : ∀ c ∈ env.board.cards,
      (trackingValue env.canvas_url_field_id c ==
        some (canonicalUrl a)) = false := by
    intro c hc
    have h2 := List.filter_eq_nil_iff.mp
      (show List.filter (fun c => trackingValue env.canvas_url_field_id c ==
        some (canonicalUrl a)) env.board.cards = [] from hnil)
    simpa using h2 c hc
  simp only [assignCreateDecisions, applyDecisions, List.foldl_cons,
    List.foldl_nil, applyDecision, doneBoard]
  congr 1
  rw [List.map_append, List.map_append, List.append_assoc]
  rw [createdCards_append, he, if_pos rfl]
  congr 1
  · rw [List.map_map]
    apply List.map_congr_left
    intro c hc
    simp only [Function.comp_apply]
    have hid : ((finalCard env done c).id ==
        env.fresh_card_id (k0 + createsCount env done)) = false := by
      rw [finalCard_id]
      simp only [beq_eq_false_iff_ne, ne_eq]
      intro hcon
      exact hFreshNew (k0 + createsCount env done) c hc hcon.symm
    rw [if_neg (by simp [hid])]
    exact (finalCard_append_not env done a c (hnp c hc)).symm
  · congr 1
    · conv_rhs => rw [← List.map_id (createdCards env done k0)]
      apply List.map_congr_left
      intro x hx
      obtain ⟨a', j, _, hx', hj1, hj2⟩ := createdCards_mem env done k0 x hx
      have hneq : (x.id ==
          env.fresh_card_id (k0 + createsCount env done)) = false := by
        rw [hx', mkCreated_id]
        simp only [beq_eq_false_iff_ne, ne_eq]
        intro hcon
        have := hFreshInj _ _ hcon
        omega
      rw [if_neg (by simp [hneq])]
      rfl
    · simp [mkCreated]

theorem applyDecisions_append (b : Board) (l1 l2 : List Decision) :
    applyDecisions b (l1 ++ l2) = applyDecisions (applyDecisions b l1) l2 :=
  List.foldl_append _ _ _ _

theorem applyRun (env : Env) (labId : String)
    (hIds : (env.board.cards.map Card.id).Nodup)
    (hFreshInj : ∀ i j, env.fresh_card_id i = env.fresh_card_id j → i = j)
    (hFreshNew : ∀ i, ∀ c ∈ env.board.cards, ¬(env.fresh_card_id i = c.id)) :
    ∀ (todo done : List Assignment) (k0 : Nat),
      ((done ++ todo).map canonicalUrl).Nodup →
      applyDecisions (doneBoard env done k0)
        (runDecisions env labId todo (k0 + createsCount env done)) =
      doneBoard env (done ++ todo) k0 := by
  intro todo
  induction todo with
  | nil =>
    intro done k0 _
    simp [runDecisions, applyDecisions]
  | cons a rest ih =>
    intro done k0 hU
    have hdone : ∀ a' ∈ done, ¬(canonicalUrl a' = canonicalUrl a) := by
      intro a' ha' hcon
      rw [List.map_append] at hU
      have h3 := (List.nodup_append.mp hU).2.2
      exact h3 (List.mem_map_of_mem canonicalUrl ha')
        (hcon ▸ List.mem_map_of_mem canonicalUrl (List.mem_cons_self a rest))
    have hU' : (((done ++ [a]) ++ rest).map canonicalUrl).Nodup := by
      rw [List.append_assoc]
      simpa using hU
    rw [runDecisions, applyDecisions_append]
    cases he : (matchedOf env a).isEmpty with
    | false =>
      have hD : assignDecisions env a labId (k0 + createsCount env done) =
          (matchedOf env a).map (decideCard a (newDescription env a)) := by
        simp [assignDecisions, he]
      rw [hD, applyAssign_matched env done a k0 hIds hFreshNew hdone he]
      have hk : k0 + createsCount env done +
          (if (false : Bool) = true then 1 else 0) =
          k0 + createsCount env (done ++ [a]) := by
        simp [createsCount, List.countP_append, he]
      rw [hk]
      have h4 := ih (done ++ [a]) k0 hU'
      rw [List.append_assoc] at h4
      simpa using h4
    | true =>
      have hD : assignDecisions env a labId (k0 + createsCount env done) =
          assignCreateDecisions env a labId (k0 + createsCount env done) := by
        simp [assignDecisions, he, List.isEmpty_iff.mp he]
      rw [hD, applyAssign_empty env labId done a k0 hFreshInj hFreshNew he]
      have hk : k0 + createsCount env done +
          (if (true : Bool) = true then 1 else 0) =
          k0 + createsCount env (done ++ [a]) := by
        simp [createsCount, List.countP_append, he]
        omega
      rw [hk]
      have h4 := ih (done ++ [a]) k0 hU'
      rw [List.append_assoc] at h4
      simpa using h4

theorem doneBoard_nil (env : Env) (k0 : Nat) :
    doneBoard env [] k0 = env.board := by
  unfold doneBoard
  have h1 : env.board.cards.map (finalCard env []) = env.board.cards := by
    have h2 : ∀ c ∈ env.board.cards, finalCard env [] c = c := fun c _ => rfl
    rw [List.map_congr_left h2]
    simp
  simp [createdCards, h1]

theorem mem_matchCards (cards : List Card) (fid url : String) (c : Card) :
    c ∈ matchCards cards fid url ↔
      c ∈ cards ∧ trackingValue fid c = some url := by
  unfold matchCards
  rw [List.mem_filter]
  simp [beq_iff_eq]

theorem isEmpty_false_of_mem {α : Type} {l : List α} {x : α} (h : x ∈ l) :
    l.isEmpty = false := by
  cases hl : l.isEmpty
  · rfl
  · rw [List.isEmpty_iff.mp hl] at h
    simp at h

theorem findAssign_of_nodup (env : Env) (c : Card) :
    ∀ (as : List Assignment) (a : Assignment),
      (as.map canonicalUrl).Nodup → a ∈ as →
      trackingValue env.canvas_url_field_id c = some (canonicalUrl a) →
      findAssign env as c = some a := by
  intro as
  induction as with
  | nil => intro a _ ha; simp at ha
  | cons b rest ih =>
    intro a hU ha htv
    unfold findAssign
    rcases List.mem_cons.mp ha with rfl | ha2
    · exact List.find?_cons_of_pos _ (by simp [htv])
    · by_cases hb : canonicalUrl b = canonicalUrl a
      · exfalso
        rw [List.map_cons] at hU
        exact (List.nodup_cons.mp hU).1
          (hb ▸ List.mem_map_of_mem canonicalUrl ha2)
      · rw [List.find?_cons_of_neg _
          (by simp [htv]; exact fun hcc => hb hcc.symm)]
        exact ih a
          (by rw [List.map_cons] at hU; exact (List.nodup_cons.mp hU).2)
          ha2 htv

theorem afterRun_no_stale (env : Env) (as : List Assignment) (k0 : Nat)
    (hU : (as.map canonicalUrl).Nodup) (a : Assignment) (ha : a ∈ as) :
    ∀ c' ∈ (doneBoard env as k0).cards,
      trackingValue env.canvas_url_field_id c' = some (canonicalUrl a) →
      shouldUpdateCard a (newDescription env a) c' = false := by
  intro c' hc' htv
  unfold doneBoard at hc'
  rcases List.mem_append.mp hc' with hc2 | hc2
  · obtain ⟨c, hcb, rfl⟩ := List.mem_map.mp hc2
    rw [trackingValue_finalCard] at htv
    have hfind : findAssign env as c = some a :=
      findAssign_of_nodup env c as a hU ha htv
    unfold finalCard
    rw [hfind]
    dsimp only
    cases hsu : shouldUpdateCard a (newDescription env a) c with
    | false =>
      rw [if_neg (by simp)]
      exact hsu
    | true =>
      rw [if_pos rfl]
      simp [shouldUpdateCard, mismatchDue, mismatchComplete, mismatchDesc,
        updateCardFields]
  · obtain ⟨a', j, ha', hc3, -, -⟩ := createdCards_mem env as k0 c' hc2
    subst hc3
    rw [trackingValue_mkCreated] at htv
    have haa : a' = a := List.inj_on_of_nodup_map hU ha' ha
      (Option.some_inj.mp htv)
    subst haa
    simp [shouldUpdateCard, mismatchDue, mismatchComplete, mismatchDesc,
      mkCreated]

theorem afterRun_matched_nonempty (env : Env) (as : List Assignment)
    (k0 : Nat) (a : Assignment) (ha : a ∈ as) :
    (matchCards (doneBoard env as k0).cards env.canvas_url_field_id
      (canonicalUrl a)).isEmpty = false := by
  cases he : (matchedOf env a).isEmpty with
  | false =>
    have hne : matchedOf env a ≠ [] := by
      intro hnil
      rw [hnil] at he
      simp at he
    obtain ⟨c, hc⟩ := List.exists_mem_of_ne_nil _ hne
    obtain ⟨hcb, htv⟩ := (mem_matchedOf env a c).mp hc
    apply isEmpty_false_of_mem (x := finalCard env as c)
    rw [mem_matchCards]
    constructor
    · unfold doneBoard
      exact List.mem_append_left _ (List.mem_map_of_mem _ hcb)
    · rw [trackingValue_finalCard]
      exact htv
  | true =>
    obtain ⟨j, hj⟩ := createdCards_mem_of env as k0 a ha he
    apply isEmpty_false_of_mem (x := mkCreated env a j)
    rw [mem_matchCards]
    constructor
    · unfold doneBoard
      exact List.mem_append_right _ hj
    · exact trackingValue_mkCreated env a j

theorem syncAssignments_all_noop (env2 : Env) (m : Mapping) (lab : Label)
    (hF : ∀ n, env2.trello_fails n = false)
    (hl : env2.board.labels.find? (fun l => l.name == m.trello_label_name) =
      some lab) :
    ∀ (l : List Assignment) (st : St),
      (∀ a ∈ l, (a.html_url.setSchemeHttps).isSome = true ∧
        (matchCards env2.board.cards env2.canvas_url_field_id
          (canonicalUrl a)).isEmpty = false ∧
        (∀ c' ∈ matchCards env2.board.cards env2.canvas_url_field_id
            (canonicalUrl a),
          shouldUpdateCard a (newDescription env2 a) c' = false)) →
      ∃ ds st', syncAssignments env2 m l st = .ok ds st' ∧
        ds.all Decision.isNoOp = true := by
  intro l
  induction l with
  | nil => intro st _; exact ⟨[], st, by simp [syncAssignments], rfl⟩
  | cons a rest ih =>
    intro st hP
    obtain ⟨hs, hne, hupd⟩ := hP a (List.mem_cons_self a rest)
    obtain ⟨u, hu⟩ := Option.isSome_iff_exists.mp hs
    have h1 := sync_assignment_ok
      { st with count_assignments := st.count_assignments + 1 } hF hu hl
    obtain ⟨ds2, st', h2, h3⟩ := ih (assignStAfter env2 a
        { st with count_assignments := st.count_assignments + 1 })
      (fun a' ha' => hP a' (List.mem_cons_of_mem _ ha'))
    refine ⟨assignDecisions env2 a lab.id st.createsDone ++ ds2, st', ?_, ?_⟩
    · simp only [syncAssignments, h1, wrapErr_ok, Outcome.seq_okc, h2,
        Outcome.prepend_okc]
    · rw [List.all_append]
      refine (Bool.and_eq_true _ _).mpr ⟨?_, h3⟩
      have hD : assignDecisions env2 a lab.id st.createsDone =
          (matchedOf env2 a).map (decideCard a (newDescription env2 a)) := by
        unfold assignDecisions
        have hne2 : (matchedOf env2 a).isEmpty = false := hne
        simp [hne2]
      rw [hD, List.all_eq_true]
      intro d hd
      obtain ⟨c, hc, rfl⟩ := List.mem_map.mp hd
      have hupdc := hupd c hc
      simp [decideCard, hupdc, Decision.isNoOp]

theorem isNoOp_not_createOrUpdate {d : Decision} (h : d.isNoOp = true) :
    d.isCreateOrUpdate = false := by
  cases d <;> simp_all [Decision.isNoOp, Decision.isCreateOrUpdate]

/-! ### The claims -/

/-- C3, amended: reconciliation is idempotent provided the snapshot's card
ids are unique, the server-assigned ids of created cards are fresh and
mutually distinct, and distinct assignments in the list have distinct
canonical urls.  Under those hypotheses, if a failure-free run over the
assignment list completes and its mutations are applied to the board, a
second run over the same list emits only NoOp decisions — zero CreateCard
and zero UpdateCard. -/
theorem c3_idempotent_after_apply (env : Env) (m : Mapping) (lab : Label)
    (as : List Assignment) (st : St)
    (hF : ∀ n, env.trello_fails n = false)
    (hl : env.board.labels.find? (fun l => l.name == m.trello_label_name) =
      some lab)
    (hss : ∀ a ∈ as, (a.html_url.setSchemeHttps).isSome = true)
    (hU : (as.map canonicalUrl).Nodup)
    (hIds : (env.board.cards.map Card.id).Nodup)
    (hFreshInj : ∀ i j, env.fresh_card_id i = env.fresh_card_id j → i = j)
    (hFreshNew : ∀ i, ∀ c ∈ env.board.cards, ¬(env.fresh_card_id i = c.id)) :
    ∃ ds1 st1 ds2 st2,
      syncAssignments env m as st = .ok ds1 st1 ∧
      syncAssignments { env with board := applyDecisions env.board ds1 } m
        as st = .ok ds2 st2 ∧
      ds2.all Decision.isNoOp = true ∧
      ds2.countP Decision.isCreateOrUpdate = 0 := by
  obtain ⟨st1, h1, -⟩ := syncAssignments_ok hF hl as st hss
  have hB2 : applyDecisions env.board
      (runDecisions env lab.id as st.createsDone) =
      doneBoard env as st.createsDone := by
    have h2 := applyRun env lab.id hIds hFreshInj hFreshNew as []
      st.createsDone (by simpa using hU)
    rw [doneBoard_nil] at h2
    simpa [createsCount] using h2
  have hl2 : (doneBoard env as st.createsDone).labels.find?
      (fun l => l.name == m.trello_label_name) = some lab := hl
  have hP : ∀ a ∈ as, (a.html_url.setSchemeHttps).isSome = true ∧
      (matchCards (doneBoard env as st.createsDone).cards
        env.canvas_url_field_id (canonicalUrl a)).isEmpty = false ∧
      (∀ c' ∈ matchCards (doneBoard env as st.createsDone).cards
          env.canvas_url_field_id (canonicalUrl a),
        shouldUpdateCard a (newDescription env a) c' = false) := by
    intro a ha
    refine ⟨hss a ha, afterRun_matched_nonempty env as st.createsDone a ha,
      ?_⟩
    intro c' hc'
    obtain ⟨hc'b, htv⟩ := (mem_matchCards _ _ _ c').mp hc'
    exact afterRun_no_stale env as st.createsDone hU a ha c' hc'b htv
  obtain ⟨ds2, st2, h3, h4⟩ := syncAssignments_all_noop
    { env with board := doneBoard env as st.createsDone } m lab hF hl2 as st
    hP
  refine ⟨runDecisions env lab.id as st.createsDone, st1, ds2, st2, h1,
    ?_, h4, ?_⟩
  · rw [hB2]
    exact h3
  · rw [List.countP_eq_zero]
    intro d hd
    have h5 := List.all_eq_true.mp h4 d hd
    simp [isNoOp_not_createOrUpdate h5]

/-- C1: for every assignment whose url can carry the https scheme and
whose label resolves, a failure-free `sync_assignment` emits exactly one
decision per matched card, in snapshot order — `assignDecisions` is the
per-card map over the matched cards, followed by the create pair only when
nothing matched — where the per-card decision is an UpdateCard carrying
the assignment's due timestamp, the computed dueComplete and the freshly
rendered description exactly when one of the three mismatch flags holds
(a stored due of `none` always counts as due-mismatched), and a NoOp
otherwise; the up-to-date counter counts exactly the NoOp cards and the
updated counter exactly the updated cards. -/
theorem c1_per_card_update_iff_mismatch (env : Env) (m : Mapping)
    (a : Assignment) (u : Url) (lab : Label) (st : St)
    (hF : ∀ n, env.trello_fails n = false)
    (hs : a.html_url.setSchemeHttps = some u)
    (hl : env.board.labels.find? (fun l => l.name == m.trello_label_name) =
      some lab) :
    sync_assignment env m a st =
      .ok (assignDecisions env a lab.id st.createsDone)
        (assignStAfter env a st) ∧
    assignDecisions env a lab.id st.createsDone =
      (matchedOf env a).map (decideCard a (newDescription env a)) ++
        (if (matchedOf env a).isEmpty then
          assignCreateDecisions env a lab.id st.createsDone else []) ∧
    (∀ c : Card,
      (decideCard a (newDescription env a) c =
          .updateCard c.id a.due_at a.submitted (newDescription env a) ↔
        (mismatchDue a c || mismatchComplete a c ||
          mismatchDesc (newDescription env a) c) = true) ∧
      (decideCard a (newDescription env a) c = .noOp c.id ↔
        (mismatchDue a c || mismatchComplete a c ||
          mismatchDesc (newDescription env a) c) = false)) ∧
    (∀ c : Card, c.due = none → mismatchDue a c = true) ∧
    (assignStAfter env a st).count_up_to_date = st.count_up_to_date +
      (matchedOf env a).countP
        (fun c => !(shouldUpdateCard a (newDescription env a) c)) ∧
    (assignStAfter env a st).count_updated = st.count_updated +
      (matchedOf env a).countP
        (shouldUpdateCard a (newDescription env a)) := by
  refine ⟨sync_assignment_ok st hF hs hl, rfl, ?_, ?_, rfl, rfl⟩
  · intro c
    cases h : (mismatchDue a c || mismatchComplete a c ||
        mismatchDesc (newDescription env a) c) with
    | true => simp [decideCard, shouldUpdateCard, h]
    | false => simp [decideCard, shouldUpdateCard, h]
  · intro c h
    simp [mismatchDue, h]

/-- C2: for an assignment with zero matched cards, a failure-free
`sync_assignment` emits exactly one CreateCard — into the configured
list, with the mapping's resolved label, the assignment's name, rendered
description, due timestamp and computed dueComplete — followed by exactly
one SetTrackingField on the id of the newly created card whose value is
the canonical url (the assignment url with its scheme rewritten to
https), and increments the created counter by exactly one. -/
theorem c2_create_then_set_tracking (env : Env) (m : Mapping)
    (a : Assignment) (u : Url) (lab : Label) (st : St)
    (hF : ∀ n, env.trello_fails n = false)
    (hs : a.html_url.setSchemeHttps = some u)
    (hl : env.board.labels.find? (fun l => l.name == m.trello_label_name) =
      some lab)
    (hempty : matchedOf env a = []) :
    sync_assignment env m a st =
      .ok [.createCard (env.fresh_card_id st.createsDone)
            env.new_card_list_id [lab.id] a.name (newDescription env a)
            a.due_at a.submitted,
          .setTrackingField (env.fresh_card_id st.createsDone)
            env.canvas_url_field_id (canonicalUrl a)]
        (assignStAfter env a st) ∧
    (assignStAfter env a st).count_created = st.count_created + 1 ∧
    canonicalUrl a = ({ a.html_url with scheme := "https" } : Url).render := by
  refine ⟨?_, ?_, rfl⟩
  · rw [sync_assignment_ok st hF hs hl]
    congr 1
    simp [assignDecisions, hempty, assignCreateDecisions]
  · simp [assignStAfter, hempty]

/-- C4: the matcher returns exactly the snapshot cards whose tracking
custom field holds a text value string-equal to the canonical url; it is a
total function returning the empty list (never an error) when nothing
matches; the as-text accessor returns nothing for the non-text variant,
and a card whose tracking-field value is non-text is never matched. -/
theorem c4_matcher_exact (cards : List Card) (fid url : String) (c : Card) :
    (c ∈ matchCards cards fid url ↔
      c ∈ cards ∧ trackingValue fid c = some url) ∧
    ((∀ c' ∈ cards, ¬(trackingValue fid c' = some url)) →
      matchCards cards fid url = []) ∧
    (∀ i : CustomFieldItem, i.value = .other → i.as_str = none) ∧
    (∀ (i : CustomFieldItem) (t : String), i.value = .text t →
      i.as_str = some t) ∧
    (∀ i : CustomFieldItem,
      c.custom_field_items.find? (fun i2 => i2.id_custom_field == fid) =
        some i →
      i.as_str = none → ¬(c ∈ matchCards cards fid url)) := by
  refine ⟨mem_matchCards cards fid url c, ?_, ?_, ?_, ?_⟩
  · intro h
    unfold matchCards
    rw [List.filter_eq_nil_iff]
    intro c' hc'
    simp [h c' hc']
  · intro i hi
    simp [CustomFieldItem.as_str, hi]
  · intro i t hi
    simp [CustomFieldItem.as_str, hi]
  · intro i hfind hnone hmem
    obtain ⟨-, htv⟩ := (mem_matchCards cards fid url c).mp hmem
    unfold trackingValue at htv
    rw [hfind] at htv
    simp [hnone] at htv

/-- C5, amended: for a matched card whose stored description does not
start with the header constant, the description-mismatch flag is false —
the description alone never triggers an update, and such a card that is
otherwise up to date yields NoOp and is left untouched — but when its due
or completion flag mismatches, the emitted update is the full patch whose
desc field is the freshly rendered description, which overwrites the
unrelated description. -/
theorem c5_desc_guard_but_full_patch (a : Assignment) (nd : String)
    (c : Card) (hhdr : startsWithStr c.desc descHeader = false) :
    mismatchDesc nd c = false ∧
    (c.due = some a.due_at → c.due_complete = a.submitted →
      decideCard a nd c = .noOp c.id) ∧
    (shouldUpdateCard a nd c = true →
      decideCard a nd c = .updateCard c.id a.due_at a.submitted nd) := by
  refine ⟨by simp [mismatchDesc, hhdr], ?_, ?_⟩
  · intro h1 h2
    simp [decideCard, shouldUpdateCard, mismatchDue, mismatchComplete,
      mismatchDesc, hhdr, h1, h2]
  · intro h
    simp [decideCard, h]

/-- C6: the computed dueComplete equals the assignment's submission flag
(`Assignment.submitted`, modelled from the spec since the method body is
not under `src/`), and for a matched card whose due and description are in
order, the decision is an update carrying that flag exactly when the
stored due_complete differs from it, and a NoOp exactly when it agrees. -/
theorem c6_due_complete_mismatch (a : Assignment) (c : Card) (nd : String) :
    a.submitted = a.expects_submission ∧
    (mismatchComplete a c = true ↔ ¬(c.due_complete = a.submitted)) ∧
    (c.due = some a.due_at → mismatchDesc nd c = false →
      ((decideCard a nd c = .updateCard c.id a.due_at a.submitted nd ↔
        ¬(c.due_complete = a.submitted)) ∧
       (decideCard a nd c = .noOp c.id ↔ c.due_complete = a.submitted))) := by
  refine ⟨rfl, by simp [mismatchComplete], ?_⟩
  intro hdue hdesc
  have h1 : mismatchDue a c = false := by simp [mismatchDue, hdue]
  by_cases h2 : c.due_complete = a.submitted
  · have h3 : mismatchComplete a c = false := by simp [mismatchComplete, h2]
    simp [decideCard, shouldUpdateCard, h1, h3, hdesc, h2]
  · have h3 : mismatchComplete a c = true := by simp [mismatchComplete, h2]
    simp [decideCard, shouldUpdateCard, h1, h3, hdesc, h2]

/-- C7, amended: the driver does not resolve the label once per mapping —
the lookup lives inside `sync_assignment`, once per assignment.  A mapping
whose label is absent from the board therefore succeeds trivially when its
course's assignment list is empty, and fails with the label-not-found
error (wrapped with the assignment's name) on the first assignment
otherwise. -/
theorem c7_label_resolved_per_assignment (env : Env) (m : Mapping) (st : St)
    (hlab : env.board.labels.find? (fun l => l.name == m.trello_label_name) =
      none) :
    (env.get_assignments m.canvas_course_id = .ok [] →
      sync_mapping env m st = .ok [] st) ∧
    (∀ (a : Assignment) (rest : List Assignment) (u : Url),
      env.get_assignments m.canvas_course_id = .ok (a :: rest) →
      a.html_url.setSchemeHttps = some u →
      sync_mapping env m st = .err
        [("Failed to sync assignment: " ++ rustDebug a.name),
         ("Could not find label " ++ rustDebug m.trello_label_name)] []
        { st with count_assignments := st.count_assignments + 1 }) := by
  constructor
  · intro hget
    simp [sync_mapping, hget, syncAssignments]
  · intro a rest u hget hu
    simp only [sync_mapping, hget, syncAssignments, sync_assignment, hu,
      hlab, wrapErr, Outcome.seq_errc]

/-- C8, amended: an assignment whose url cannot carry the https scheme —
a cannot-be-a-base url, or one whose scheme is not a special network
scheme — makes `sync_assignment` panic (the `unwrap` on `set_scheme`),
aborting the process rather than surfacing a recoverable error value; for
every other assignment the canonical url is exactly the input url with
its scheme overwritten to https. -/
theorem c8_scheme_panic_or_rewrite (env : Env) (m : Mapping)
    (a : Assignment) (st : St) :
    (a.html_url.setSchemeHttps = none →
      sync_assignment env m a st = .panicked [] st) ∧
    (∀ u : Url, a.html_url.setSchemeHttps = some u →
      u = { a.html_url with scheme := "https" } ∧
      u.render = canonicalUrl a) ∧
    (a.html_url.setSchemeHttps = none ↔
      (a.html_url.cannot_be_a_base = true ∨
        specialSchemes.contains a.html_url.scheme = false)) := by
  refine ⟨?_, ?_, setSchemeHttps_none⟩
  · intro h
    simp [sync_assignment, h]
  · intro u hu
    exact ⟨(setSchemeHttps_some hu).1, setSchemeHttps_render hu⟩

/-- C9: the first error aborts the whole run — the mappings after the
failing one contribute nothing to the result, the decisions emitted and
mutations applied before the abort are all retained (no rollback), and the
error is wrapped first with the failing assignment's name and then with
the failing mapping's label name. -/
theorem c9_first_error_aborts_run (env : Env) (ms1 ms2 : List Mapping)
    (m : Mapping) (as1 as2 : List Assignment) (a : Assignment) (st : St)
    (ds1 ds2 ds3 : List Decision) (st1 st2 st3 : St) (ctx : List String)
    (hget : env.get_assignments m.canvas_course_id = .ok (as1 ++ a :: as2))
    (h1 : syncMappings env ms1 st = .ok ds1 st1)
    (h2 : syncAssignments env m as1 st1 = .ok ds2 st2)
    (h3 : sync_assignment env m a
      { st2 with count_assignments := st2.count_assignments + 1 } =
      .err ctx ds3 st3) :
    syncMappings env (ms1 ++ m :: ms2) st =
      .err (("Failed to sync mapping: " ++ rustDebug m.trello_label_name) ::
          ("Failed to sync assignment: " ++ rustDebug a.name) :: ctx)
        (ds1 ++ (ds2 ++ ds3)) st3 := by
  rw [syncMappings_append, h1, Outcome.seq_okc]
  have hmap : sync_mapping env m st1 =
      .err (("Failed to sync assignment: " ++ rustDebug a.name) :: ctx)
        (ds2 ++ ds3) st3 := by
    simp only [sync_mapping, hget]
    rw [syncAssignments_append, h2, Outcome.seq_okc]
    simp only [syncAssignments, h3, wrapErr_err, Outcome.seq_errc,
      Outcome.prepend_errc]
  simp only [syncMappings, hmap, wrapErr_err, Outcome.seq_errc,
    Outcome.prepend_errc]

/-- C10: every decision of a run is computed against the one board
snapshot held in the environment, which no mutation changes; two distinct
assignments sharing a canonical url that matches no snapshot card
therefore both take the create branch: the run emits two independent
create-and-set-tracking pairs and counts two creations. -/
theorem c10_snapshot_frozen_duplicate_urls (env : Env) (m : Mapping)
    (a1 a2 : Assignment) (u1 u2 : Url) (lab : Label) (st : St)
    (hF : ∀ n, env.trello_fails n = false)
    (hs1 : a1.html_url.setSchemeHttps = some u1)
    (hs2 : a2.html_url.setSchemeHttps = some u2)
    (hl : env.board.labels.find? (fun l => l.name == m.trello_label_name) =
      some lab)
    (hurl : canonicalUrl a2 = canonicalUrl a1)
    (hempty : matchedOf env a1 = []) :
    ∃ st', syncAssignments env m [a1, a2] st = .ok
      [.createCard (env.fresh_card_id st.createsDone) env.new_card_list_id
         [lab.id] a1.name (newDescription env a1) a1.due_at a1.submitted,
       .setTrackingField (env.fresh_card_id st.createsDone)
         env.canvas_url_field_id (canonicalUrl a1),
       .createCard (env.fresh_card_id (st.createsDone + 1))
         env.new_card_list_id [lab.id] a2.name (newDescription env a2)
         a2.due_at a2.submitted,
       .setTrackingField (env.fresh_card_id (st.createsDone + 1))
         env.canvas_url_field_id (canonicalUrl a2)] st' ∧
      st'.count_created = st.count_created + 2 ∧
      st'.count_assignments = st.count_assignments + 2 := by
  have hempty2 : matchedOf env a2 = [] := by
    unfold matchedOf
    rw [hurl]
    exact hempty
  have hb1 := sync_assignment_ok
    { st with count_assignments := st.count_assignments + 1 } hF hs1 hl
  set stA := assignStAfter env a1
    { st with count_assignments := st.count_assignments + 1 } with hstA
  refine ⟨assignStAfter env a2
    { stA with count_assignments := stA.count_assignments + 1 }, ?_, ?_, ?_⟩
  · simp only [syncAssignments, hb1, wrapErr_ok, Outcome.seq_okc]
    have hb2 := sync_assignment_ok
      { stA with count_assignments := stA.count_assignments + 1 } hF hs2 hl
    simp only [syncAssignments, hb2, wrapErr_ok, Outcome.seq_okc,
      Outcome.prepend_okc, List.append_nil]
    have hcd : stA.createsDone = st.createsDone + 1 := by
      rw [hstA]
      simp [assignStAfter, hempty]
    rw [hcd]
    simp [assignDecisions, assignCreateDecisions, hempty, hempty2]
  · simp [assignStAfter, hstA, hempty, hempty2]
  · simp [assignStAfter, hstA, hempty, hempty2]

/-! ### Counterexamples and witnesses -/

/-- C3 counterexample: with two distinct assignments sharing one canonical
url, the first run completes (creating two cards) and the second run over
the applied board — same assignment list, no external changes — emits two
UpdateCard decisions, not zero. -/
theorem c3_counterexample :
    wDupRun1.isOk = true ∧ wDupRun2.isOk = true ∧
    wDupRun2.decisionList.countP Decision.isCreateOrUpdate = 2 := by decide

/-- C5 counterexample: a matched card whose description does not carry the
header but whose due is stale receives the full update patch, and applying
it replaces the unrelated description with the rendered one. -/
theorem c5_counterexample :
    sync_assignment (wEnv [wCardManual]) wMapping wAssign st0 =
      .ok [Decision.updateCard "Y" 0 false descHeader] ⟨1, 0, 0, 0, 1, 0⟩ ∧
    (applyDecisions (wEnv [wCardManual]).board
        [Decision.updateCard "Y" 0 false descHeader]).cards.map Card.desc =
      [descHeader] ∧
    (wEnv [wCardManual]).board.cards.map Card.desc = ["my notes"] ∧
    ¬(descHeader = "my notes") := by decide

/-- C7 counterexample: a mapping whose label is absent from the board and
whose course has no assignments completes successfully — no NotFound
failure is raised. -/
theorem c7_counterexample :
    wEnvNoLabelEmptyCourse.board.labels.find?
      (fun l => l.name == wMapping.trello_label_name) = none ∧
    sync_mapping wEnvNoLabelEmptyCourse wMapping st0 = .ok [] st0 ∧
    (sync_mapping wEnvNoLabelEmptyCourse wMapping st0).isErr = false := by
  decide

/-- C8 counterexample: an assignment whose url cannot carry a scheme makes
the sync panic; the outcome is not an error value on the run's error
channel. -/
theorem c8_counterexample :
    sync_assignment wEnvNoLabel wMapping wAssignBad st0 =
      .panicked [] st0 ∧
    (sync_assignment wEnvNoLabel wMapping wAssignBad st0).isErr = false := by
  decide

/-- C1 witness at a concrete input: one matched card with a stored due of
`none` yields exactly one full-patch update decision. -/
theorem c1_witness :
    sync_assignment (wEnv [wCard]) wMapping wAssign st0 =
      .ok (assignDecisions (wEnv [wCard]) wAssign "lid" 0)
        (assignStAfter (wEnv [wCard]) wAssign st0) ∧
    assignDecisions (wEnv [wCard]) wAssign "lid" 0 =
      [Decision.updateCard "X" 0 false descHeader] := by
  have h := c1_per_card_update_iff_mismatch (wEnv [wCard]) wMapping wAssign
    ⟨"https", false, "lms/a/1"⟩ ⟨"lid", "Math"⟩ st0 (fun _ => rfl)
    (by decide) (by decide)
  exact ⟨h.1, by decide⟩

/-- C2 witness at the spec's scenario: no matched card, so one create and
one set-tracking-field on the new card's id, and one creation counted. -/
theorem c2_witness :
    sync_assignment (wEnv []) wMapping wAssign st0 =
      .ok [Decision.createCard ((wEnv []).fresh_card_id st0.createsDone)
          (wEnv []).new_card_list_id ["lid"] wAssign.name
          (newDescription (wEnv []) wAssign) wAssign.due_at
          wAssign.submitted,
        Decision.setTrackingField ((wEnv []).fresh_card_id st0.createsDone)
          (wEnv []).canvas_url_field_id (canonicalUrl wAssign)]
        (assignStAfter (wEnv []) wAssign st0) ∧
    (assignStAfter (wEnv []) wAssign st0).count_created = 1 ∧
    canonicalUrl wAssign = "https://lms/a/1" := by
  have h := c2_create_then_set_tracking (wEnv []) wMapping wAssign
    ⟨"https", false, "lms/a/1"⟩ ⟨"lid", "Math"⟩ st0 (fun _ => rfl)
    (by decide) (by decide) (by decide)
  exact ⟨h.1, h.2.1, by decide⟩

/-- C3 witness at a concrete input: a single assignment on an empty board
is created on the first run and NoOp on the second. -/
theorem c3_witness :
    ∃ ds1 st1 ds2 st2,
      syncAssignments (wEnv []) wMapping [wAssign] st0 = .ok ds1 st1 ∧
      syncAssignments { wEnv [] with
          board := applyDecisions (wEnv []).board ds1 } wMapping [wAssign]
        st0 = .ok ds2 st2 ∧
      ds2.all Decision.isNoOp = true ∧
      ds2.countP Decision.isCreateOrUpdate = 0 :=
  c3_idempotent_after_apply (wEnv []) wMapping ⟨"lid", "Math"⟩ [wAssign] st0
    (fun _ => rfl) (by decide) (by decide) (by decide) (by decide)
    (fun i j h => by
      have h2 := congrArg (fun s => s.data.length) h
      simp [wEnv, wFresh] at h2
      omega)
    (fun i c hc => by simp [wEnv, wBoard] at hc)

/-- C4 witness at concrete inputs: a card with the matching tracking text
is matched, and the matcher on a snapshot with no matching card returns
the empty list. -/
theorem c4_witness :
    wCard ∈ matchCards [wCard] "F" "https://lms/a/1" ∧
    matchCards [] "F" "https://lms/a/1" = [] :=
  ⟨(c4_matcher_exact [wCard] "F" "https://lms/a/1" wCard).1.mpr (by decide),
   (c4_matcher_exact [] "F" "https://lms/a/1" wCard).2.1
     (fun c' hc' => absurd hc' (List.not_mem_nil c'))⟩

/-- C5 witness at a concrete input: the manually-edited card's description
never sets the description-mismatch flag. -/
theorem c5_witness :
    mismatchDesc descHeader wCardManual = false ∧
    startsWithStr wCardManual.desc descHeader = false :=
  ⟨(c5_desc_guard_but_full_patch wAssign descHeader wCardManual
      (by decide)).1, by decide⟩

/-- C6 witness at a concrete input: a managed card agreeing on due and
description but with a stale completion flag is updated, with the patch
carrying the computed dueComplete. -/
theorem c6_witness :
    wAssign.submitted = false ∧
    decideCard wAssign descHeader wCardComplete =
      .updateCard "Z" 0 false descHeader :=
  ⟨rfl, by
    have h := (c6_due_complete_mismatch wAssign wCardComplete descHeader).2.2
      (by decide) (by decide)
    exact h.1.mpr (by decide)⟩

/-- C7 witness at concrete inputs: the empty-course mapping with a missing
label succeeds; the same mapping with one assignment fails with the
label-not-found error wrapped in the assignment's name. -/
theorem c7_witness :
    sync_mapping wEnvNoLabelEmptyCourse wMapping st0 = .ok [] st0 ∧
    sync_mapping wEnvNoLabel wMapping st0 = .err
      ["Failed to sync assignment: " ++ rustDebug "HW1",
       "Could not find label " ++ rustDebug "Math"] []
      ⟨0, 0, 1, 0, 0, 0⟩ := by
  have h := c7_label_resolved_per_assignment wEnvNoLabelEmptyCourse wMapping
    st0 (by decide)
  have h2 := c7_label_resolved_per_assignment wEnvNoLabel wMapping st0
    (by decide)
  exact ⟨h.1 rfl,
    h2.2 wAssign [] ⟨"https", false, "lms/a/1"⟩ rfl (by decide)⟩

/-- C8 witness at concrete inputs: the cannot-carry-a-scheme assignment
panics, and a well-formed url is rewritten to https. -/
theorem c8_witness :
    sync_assignment wEnvNoLabel wMapping wAssignBad st0 =
      .panicked [] st0 ∧
    ({ wUrl with scheme := "https" } : Url).render = canonicalUrl wAssign := by
  have h := c8_scheme_panic_or_rewrite wEnvNoLabel wMapping wAssignBad st0
  have h2 := c8_scheme_panic_or_rewrite wEnvNoLabel wMapping wAssign st0
  exact ⟨h.1 (by decide),
    (h2.2.1 ⟨"https", false, "lms/a/1"⟩ (by decide)).2⟩

/-- C9 witness at a concrete input: the missing label aborts the run on
the first assignment of the first mapping, with both context wraps and an
empty mutation stream. -/
theorem c9_witness :
    syncMappings wEnvNoLabel [wMapping] st0 = .err
      [("Failed to sync mapping: " ++ rustDebug "Math"),
       ("Failed to sync assignment: " ++ rustDebug "HW1"),
       ("Could not find label " ++ rustDebug "Math")] []
      ⟨0, 0, 1, 0, 0, 0⟩ := by
  have h := c9_first_error_aborts_run wEnvNoLabel [] [] wMapping [] []
    wAssign st0 [] [] [] st0 st0 ⟨0, 0, 1, 0, 0, 0⟩
    ["Could not find label " ++ rustDebug "Math"]
    rfl rfl rfl (by decide)
  exact h

/-- C10 witness at a concrete input: two assignments sharing one canonical
url on an empty board each create a card against the frozen snapshot. -/
theorem c10_witness :
    ∃ st', syncAssignments (wEnv []) wMapping [wAssignDupA, wAssignDupB]
        st0 = .ok
      [Decision.createCard ((wEnv []).fresh_card_id st0.createsDone)
         (wEnv []).new_card_list_id ["lid"] wAssignDupA.name
         (newDescription (wEnv []) wAssignDupA) wAssignDupA.due_at
         wAssignDupA.submitted,
       Decision.setTrackingField ((wEnv []).fresh_card_id st0.createsDone)
         (wEnv []).canvas_url_field_id (canonicalUrl wAssignDupA),
       Decision.createCard ((wEnv []).fresh_card_id (st0.createsDone + 1))
         (wEnv []).new_card_list_id ["lid"] wAssignDupB.name
         (newDescription (wEnv []) wAssignDupB) wAssignDupB.due_at
         wAssignDupB.submitted,
       Decision.setTrackingField
         ((wEnv []).fresh_card_id (st0.createsDone + 1))
         (wEnv []).canvas_url_field_id (canonicalUrl wAssignDupB)] st' ∧
      st'.count_created = st0.count_created + 2 ∧
      st'.count_assignments = st0.count_assignments + 2 :=
  c10_snapshot_frozen_duplicate_urls (wEnv []) wMapping wAssignDupA
    wAssignDupB ⟨"https", false, "x/1"⟩ ⟨"https", false, "x/1"⟩
    ⟨"lid", "Math"⟩ st0 (fun _ => rfl) (by decide) (by decide) (by decide)
    (by decide) (by decide)

end CanvasTrelloSync
